import Mathlib

/-!
# Verification of the mcp-host-rpc context-scoped RPC bridge

Shallow embedding of the host module (`src/host.ts`) and the bridge process
(`src/index.ts`) of the `@botanicastudios/mcp-host-rpc` package, together with
proofs of the specification's claims about them.

JavaScript JSON values are modelled by the inductive type `Json` below; the
external collaborators (the `jsonwebtoken` signing library, `JSON.parse`, and
the `json-rpc-2.0` request router) are modelled at their interface boundary:
signing symbolically, parsing as an oracle parameter, and the method table by
its documented overwrite-per-name insertion.

The file is laid out as the definitions (the embedding of the source),
followed by the theorems about them.
-/

/-- A JSON value as JavaScript sees it: `null`, booleans, numbers, strings,
arrays and objects (ordered field lists, as `Object.entries` exposes them).
Numbers are modelled as integers; no claim depends on float semantics. -/
inductive Json where
  | null : Json
  | bool (b : Bool) : Json
  | num (n : Int) : Json
  | str (s : String) : Json
  | arr (xs : List Json) : Json
  | obj (fields : List (String × Json)) : Json

namespace Json

mutual

/-- Structural equality test; the nested `List` positions rule out a derived
instance, so the test recurses mutually through arrays and field lists. -/
def eqb (a : Json) (b : Json) : Bool :=
  match a, b with
  | .null, .null => true
  | .bool p, .bool q => p == q
  | .num p, .num q => p == q
  | .str p, .str q => p == q
  | .arr us, .arr ws => eqbArr us ws
  | .obj us, .obj ws => eqbObj us ws
  | _, _ => false

def eqbArr (us : List Json) (ws : List Json) : Bool :=
  match us, ws with
  | [], [] => true
  | u :: urest, w :: wrest => eqb u w && eqbArr urest wrest
  | _, _ => false

def eqbObj (us : List (String × Json)) (ws : List (String × Json)) : Bool :=
  match us, ws with
  | [], [] => true
  | (ku, u) :: urest, (kw, w) :: wrest =>
    ku == kw && eqb u w && eqbObj urest wrest
  | _, _ => false

end

end Json

/-- JavaScript `typeof` on a JSON value (`typeof null` is `"object"`, arrays
are `"object"` too). -/
def jsTypeof : Json → String
  | .null => "object"
  | .bool _ => "boolean"
  | .num _ => "number"
  | .str _ => "string"
  | .arr _ => "object"
  | .obj _ => "object"

/-- The `typeof` test extended to a possibly-absent value, as destructuring
a missing array element yields `undefined`. -/
def jsTypeofOpt : Option Json → String
  | none => "undefined"
  | some j => jsTypeof j

/-- Property read `m[k]` on a JavaScript object modelled as an ordered field
list: first matching key (key sets stay duplicate-free under `jsInsert`). -/
def jsLookup {α : Type} : List (String × α) → String → Option α
  | [], _ => none
  | (k1, v) :: rest, k => if k1 = k then some v else jsLookup rest k

/-- Property write `m[k] = v` (also `Map.set`): replace in place when the key
exists, append otherwise. -/
def jsInsert {α : Type} : List (String × α) → String → α → List (String × α)
  | [], k, v => [(k, v)]
  | (k1, v1) :: rest, k, v =>
    if k1 = k then (k1, v) :: rest else (k1, v1) :: jsInsert rest k v

namespace Json

/-- Property read `j.k` when `j` is an object. -/
def lookupField : Json → String → Option Json
  | .obj fs, k => jsLookup fs k
  | _, _ => none

/-- JavaScript `"k" in j` for an object `j`. -/
def hasKey (j : Json) (k : String) : Bool :=
  (j.lookupField k).isSome

/-- One character of a JSON string literal, with the two escapes the claims
could ever touch. -/
def quoteChar (c : Char) : String :=
  if c = '\\' then "\\\\" else if c = '"' then "\\\"" else String.singleton c

/-- A JSON string literal. -/
def quoteString (s : String) : String :=
  "\"" ++ String.join (s.toList.map quoteChar) ++ "\""

mutual

/-- The `JSON.stringify` serialization (no spacing), the serializer the
bridge applies to non-string, non-array, non-content results. -/
def stringify : Json → String
  | .null => "null"
  | .bool true => "true"
  | .bool false => "false"
  | .num n => toString n
  | .str s => quoteString s
  | .arr xs => "[" ++ stringifyList xs ++ "]"
  | .obj fs => "\x7b" ++ stringifyFields fs ++ "\x7d"

def stringifyList : List Json → String
  | [] => ""
  | [x] => stringify x
  | x :: y :: xs => stringify x ++ "," ++ stringifyList (y :: xs)

def stringifyFields : List (String × Json) → String
  | [] => ""
  | [(k, v)] => quoteString k ++ ":" ++ stringify v
  | (k, v) :: f :: fs => quoteString k ++ ":" ++ stringify v ++ "," ++ stringifyFields (f :: fs)

end

end Json

/-! ## ContextToken (`createJWT` / `verifyJWT`, src/host.ts)

The `jsonwebtoken` library is an external collaborator; it is modelled
symbolically at its interface boundary: a signed token carries its claims
payload together with a signature, and the signature is represented as the
(secret, payload) pair the HMAC is computed over, so that verification with
the same secret succeeds and verification with any other secret fails — the
tamper-evidence contract the host relies on. -/

/-- A signed token as `jwt.sign` returns it: the claims payload plus the
signature over it (symbolic HMAC: the signing secret and signed payload). -/
structure JwtToken where
  payload : Json
  sigSecret : String
  sigPayload : Json

/-- The library call `jwt.sign(payload, secret, {noTimestamp: true})`: sign
the claims payload verbatim, no expiry claim. -/
def jwtSign (secret : String) (payload : Json) : JwtToken :=
  ⟨payload, secret, payload⟩

/-- The library call `jwt.verify(token, secret)`: recompute the signature
with the supplied secret and compare byte-wise; mismatch throws (modelled as
`.error`). -/
def jwtVerify (secret : String) (t : JwtToken) : Except String Json :=
  if t.sigSecret == secret && Json.eqb t.sigPayload t.payload then .ok t.payload
  else .error "invalid signature"

/-- The method `McpHost.createJWT` (src/host.ts:234): wrap the context value
in a one-field `context` claims object and sign it. -/
def createJWT (secret : String) (context : Json) : JwtToken :=
  jwtSign secret (.obj [("context", context)])

/-- The method `McpHost.verifyJWT` (src/host.ts:238): verify, then return
`decoded.context` (an absent field would be `undefined`, hence `Option`);
any verification error is re-thrown as `Invalid JWT token: ...`. -/
def verifyJWT (secret : String) (token : JwtToken) : Except String (Option Json) :=
  match jwtVerify secret token with
  | .ok decoded => .ok (decoded.lookupField "context")
  | .error e => .error ("Invalid JWT token: " ++ e)

/-! ## Bridge tool invocation (src/index.ts:168-199)

The per-tool handler awaits the RPC round-trip, normalizes a successful
result into the MCP content shape, and catches any rejection, turning it
into a successful text result. The RPC round-trip itself is the external
transport; its outcome is the handler's input here. -/

/-- A single MCP text-content item, the object with `type: "text"` and the
given text. -/
def textItem (s : String) : Json :=
  Json.obj [("type", .str "text"), ("text", .str s)]

/-- An MCP tool result: an object with the given `content` item list. -/
def mkContent (items : List Json) : Json :=
  Json.obj [("content", Json.arr items)]

/-- The bridge's result-shape normalization (src/index.ts:177-185): the
if/else chain testing `typeof result === "string"`, then `Array.isArray`,
then `result && typeof result === "object" && "type" in result` (`null` is
falsy and arrays were already taken, so this case is exactly an object with
a `"type"` field), with `JSON.stringify` as the fallback. -/
def bridgeContentOfResult (result : Json) : Json :=
  match result with
  | .str s => mkContent [textItem s]
  | .arr xs => Json.obj [("content", Json.arr xs)]
  | .obj fs =>
    if (Json.obj fs).hasKey "type" then mkContent [Json.obj fs]
    else mkContent [textItem (Json.obj fs).stringify]
  | other => mkContent [textItem other.stringify]

/-- The bridge's tool invocation handler, as a function of the RPC call's
outcome (src/index.ts:168-199): a resolved result is normalized; a rejection
is caught and becomes a successful result with one explanatory text item.
The function is total — no outcome makes the handler throw. -/
def bridgeToolCall (functionName : String) (rpcOutcome : Except String Json) : Json :=
  match rpcOutcome with
  | .ok result => bridgeContentOfResult result
  | .error msg => mkContent [textItem ("Error calling " ++ functionName ++ ": " ++ msg)]

/-! ## Host socket line handling (src/host.ts:382-417)

The `data` handler splits a chunk into lines, skips whitespace-only lines,
`JSON.parse`s each line, dispatches parsed requests through the JSON-RPC
server, and on a parse failure writes a `-32700` protocol-error reply.
`JSON.parse` and `this.server.receive` are external collaborators and enter
as oracle parameters; the socket's `writable` flag is part of the connection
state and is threaded through so that one can state whether the handler
consults it (the source does not, on this path). -/

/-- An observable socket effect of per-line processing. -/
inductive SocketAction where
  | write (j : Json)

/-- JavaScript's `!line.trim()`: the line is empty or whitespace-only (an
empty string is falsy). Used both by the chunk split's `.filter` and by the
handler's own guard. -/
def isBlank (line : String) : Bool :=
  line.toList.all Char.isWhitespace

/-- The parse-error reply built in the catch branch (src/host.ts:406-414). -/
def parseErrorResponse (errText : String) : Json :=
  Json.obj [("jsonrpc", .str "2.0"),
            ("error", Json.obj [("code", .num (-32700)),
                                ("message", .str "Parse error"),
                                ("data", .str errText)]),
            ("id", Json.null)]

/-- The host's processing of one line of socket data (src/host.ts:388-417):
skip a blank line; on a successful parse dispatch to the JSON-RPC server and
write its response when there is one; on a failed parse write
`parseErrorResponse` — unconditionally, the `writable` flag is never read.
The function is total: a bad line never throws. -/
def hostHandleLine (writable : Bool) (line : String)
    (jsonParse : String → Except String Json)
    (serverReceive : Json → Option Json) : List SocketAction :=
  if isBlank line then []
  else
    match jsonParse line with
    | .ok request =>
      match serverReceive request with
      | some response => [.write response]
      | none => []
    | .error e => [.write (parseErrorResponse e)]

/-- Modelled from the spec's words (claim C3): the same per-line processing,
except that before writing the parse-error reply the server checks that the
socket is still writable and drops the reply when it is not. For comparison
with `hostHandleLine`, which is what the source does. -/
def hostHandleLineClaimed (writable : Bool) (line : String)
    (jsonParse : String → Except String Json)
    (serverReceive : Json → Option Json) : List SocketAction :=
  if isBlank line then []
  else
    match jsonParse line with
    | .ok request =>
      match serverReceive request with
      | some response => [.write response]
      | none => []
    | .error e => if writable then [.write (parseErrorResponse e)] else []

/-! ## Tool registration and request dispatch (src/host.ts:251-292)

`registerTool` stores the handler under the descriptor's `functionName` in
the `rpcHandlers` map, stores the (Zod-converted) descriptor under the tool
name in `toolsConfig`, and installs a JWT-verifying wrapper as the JSON-RPC
method named `functionName`. -/

/-- The JWT-verifying wrapper installed around a registered handler
(src/host.ts:268-288). JSON-RPC 2.0 hands the client's positional array
wrapped in another array; destructuring takes its first two elements (an
absent one is `undefined`, hence `Option`). A non-string first element
throws a descriptive type error; otherwise the token is verified (`verify`
stands for `this.verifyJWT` under the host's secret) and the handler is
awaited, its error re-thrown as-is. -/
def wrappedHandler (verify : String → Except String (Option Json))
    (handler : Option Json → Option Json → Except String Json)
    (params0 : List Json) : Except String Json :=
  let contextToken := params0.get? 0
  let args := params0.get? 1
  match contextToken with
  | some (.str tok) => do
      let context ← verify tok
      handler context args
  | _ => .error ("Expected JWT token as string, got " ++ jsTypeofOpt contextToken)

/-! ## Environment bundle (`getMCPServerEnvVars`, src/host.ts:294-313)

The calls `JSON.stringify` / `JSON.parse` on the filtered mapping are the
external JSON library's mutually inverse round trip, so the bundle's `TOOLS`
value is carried here as the filtered mapping itself. -/

/-- A registered tool's descriptor (`ToolProperties`, src/host.ts:138-150);
past registration the input schema is a plain JSON value. -/
structure ToolProperties where
  title : String
  description : String
  functionName : String
  inputSchema : Json

/-- The filtering loop of `getMCPServerEnvVars` (src/host.ts:298-304): copy
into a fresh object the registry entries named by the request, silently
skipping names with no registry entry. -/
def filterTools (toolsConfig : List (String × ToolProperties)) (tools : List String) :
    List (String × ToolProperties) :=
  tools.foldl (fun acc toolName =>
    match jsLookup toolsConfig toolName with
    | some props => jsInsert acc toolName props
    | none => acc) []

/-- The environment bundle (src/host.ts:306-312). -/
structure EnvVars where
  CONTEXT_TOKEN : JwtToken
  PIPE : String
  TOOLS : List (String × ToolProperties)

/-- The method `McpHost.getMCPServerEnvVars` (src/host.ts:294-313). -/
def getMCPServerEnvVars (secret pipePath : String)
    (toolsConfig : List (String × ToolProperties))
    (tools : List String) (context : Json) : EnvVars :=
  { CONTEXT_TOKEN := createJWT secret context
    PIPE := pipePath
    TOOLS := filterTools toolsConfig tools }

/-! ## SchemaTranslator (`zodToJsonSchema`, src/host.ts:35-136)

The zod library that produces schema nodes is external; a node is carried
here as the tagged variant its `_def.typeName` discriminates (exactly the
kinds src/host.ts:43-132 handles, with `zUnknown` for any other), and zod's
`.isOptional()` is modelled at the library's interface: whether the schema
accepts `undefined`. -/

/-- A string-schema constraint (`schema._def.checks` entry). -/
inductive ZodCheck where
  | min (value : Int)
  | max (value : Int)
  | other (kind : String)

/-- A Zod schema node. -/
inductive ZodSchema where
  | zObject (shape : List (String × ZodSchema))
  | zString (description : Option String) (checks : List ZodCheck)
  | zNumber (description : Option String)
  | zBoolean (description : Option String)
  | zArray (description : Option String) (item : ZodSchema)
  | zEnum (description : Option String) (values : List String)
  | zOptional (inner : ZodSchema)
  | zDefault (inner : ZodSchema) (defaultValue : Json)
  | zEffects (inner : ZodSchema)
  | zUnknown (typeName : String)

/-- zod's `.isOptional()`: whether the schema accepts `undefined` — true for
an optional wrapper, for a default wrapper (parsing `undefined` yields the
default), and for an effects wrapper over such a schema. -/
def ZodSchema.isOptional : ZodSchema → Bool
  | .zOptional _ => true
  | .zDefault _ _ => true
  | .zEffects inner => inner.isOptional
  | _ => false

/-- The `if (desc) result.description = desc` step shared by the scalar
cases. -/
def withDescription (desc : Option String) (fields : List (String × Json)) :
    List (String × Json) :=
  match desc with
  | some d => jsInsert fields "description" (.str d)
  | none => fields

/-- The `checks` loop of the ZodString case (src/host.ts:69-73): `min` and
`max` checks set `minLength`/`maxLength`, other kinds are ignored. -/
def applyChecks (checks : List ZodCheck) (fields : List (String × Json)) :
    List (String × Json) :=
  checks.foldl (fun acc c =>
    match c with
    | .min v => jsInsert acc "minLength" (.num v)
    | .max v => jsInsert acc "maxLength" (.num v)
    | .other _ => acc) fields

mutual

/-- The conversion `zodToJsonSchema` (its inner `processSchema`,
src/host.ts:40-133). The ZodObject case builds `properties` and `required`
over the declared shape in one loop, pushing each key into `required`
exactly when its schema's `.isOptional()` is false, and closes the object
with `additionalProperties: false`. -/
def zodToJsonSchema : ZodSchema → Json
  | .zObject shape =>
    Json.obj [("type", .str "object"),
              ("properties", Json.obj (zodShapeToProperties shape)),
              ("required", Json.arr (zodShapeRequired shape)),
              ("additionalProperties", .bool false)]
  | .zString desc checks =>
    Json.obj (applyChecks checks (withDescription desc [("type", .str "string")]))
  | .zNumber desc => Json.obj (withDescription desc [("type", .str "number")])
  | .zBoolean desc => Json.obj (withDescription desc [("type", .str "boolean")])
  | .zArray desc item =>
    Json.obj (withDescription desc
      [("type", .str "array"), ("items", zodToJsonSchema item)])
  | .zEnum desc values =>
    Json.obj (withDescription desc
      [("type", .str "string"), ("enum", Json.arr (values.map Json.str))])
  | .zOptional inner => zodToJsonSchema inner
  | .zDefault inner dv =>
    match zodToJsonSchema inner with
    | .obj fs => .obj (jsInsert fs "default" dv)
    | j => j
  | .zEffects inner => zodToJsonSchema inner
  | .zUnknown _ => Json.obj [("type", .str "string")]

/-- The ZodObject loop's `properties` accumulation (src/host.ts:48-53). -/
def zodShapeToProperties : List (String × ZodSchema) → List (String × Json)
  | [] => []
  | (k, v) :: rest => (k, zodToJsonSchema v) :: zodShapeToProperties rest

/-- The ZodObject loop's `required` accumulation (src/host.ts:48-53): the
keys whose schema is not optional, in declaration order. -/
def zodShapeRequired : List (String × ZodSchema) → List Json
  | [] => []
  | (k, v) :: rest =>
    if v.isOptional then zodShapeRequired rest
    else Json.str k :: zodShapeRequired rest

end

/-! ## Server lifecycle (`start` / `stop`, src/host.ts:364-484) -/

/-- The lifecycle-relevant fields of a `McpHost` (src/host.ts:196-204):
`isStarted`, and whether `socketServer` exists (it is `undefined` until the
first `start` creates it). -/
structure HostLifecycle where
  isStarted : Bool
  hasSocketServer : Bool

/-- An observable lifecycle effect of `start` / `stop`. -/
inductive LifecycleAction where
  | bindSocket (path : String)
  | closeSocket
  | unlinkSocketFile (path : String)

/-- The method `McpHost.start` (src/host.ts:364-447) as a state transition
returning (outcome, new state, effects). When `isStarted` the guard throws
and nothing else happens; otherwise the socket server is created and
`listen` is attempted on the pipe path (`bindResult` is the external bind
outcome): on success the listen callback sets `isStarted`, on a bind error
the promise rejects with the server created but not started. -/
def hostStart (s : HostLifecycle) (pipePath : String)
    (bindResult : Except String Unit) :
    Except String Unit × HostLifecycle × List LifecycleAction :=
  if s.isStarted then (.error "Server is already started", s, [])
  else
    match bindResult with
    | .ok () =>
      (.ok (), { isStarted := true, hasSocketServer := true }, [.bindSocket pipePath])
    | .error e =>
      (.error e, { s with hasSocketServer := true }, [.bindSocket pipePath])

/-- The method `McpHost.stop` (src/host.ts:449-484): when not started (or no
socket server exists) it returns at once; otherwise the socket server is
closed (`closeResult` is the external close outcome, the timeout path
included as its error case): on success the socket file is removed and
`isStarted` cleared, on a close error the promise rejects. -/
def hostStop (s : HostLifecycle) (pipePath : String)
    (closeResult : Except String Unit) :
    Except String Unit × HostLifecycle × List LifecycleAction :=
  if !s.isStarted || !s.hasSocketServer then (.ok (), s, [])
  else
    match closeResult with
    | .ok () =>
      (.ok (), { s with isStarted := false }, [.closeSocket, .unlinkSocketFile pipePath])
    | .error e => (.error e, s, [.closeSocket])

/-! ## Registration state and re-registration (src/host.ts:251-292) -/

/-- The registration state of a `McpHost`: the descriptor registry keyed by
tool name, the `rpcHandlers` map keyed by RPC function name, and the
JSON-RPC server's method table (`json-rpc-2.0`'s `addMethod` stores one
method per name with overwrite semantics, which `jsInsert` models).
Descriptors are carried in their stored form (input schema already
JSON-converted; `zodToJsonSchema` covers that step). -/
structure RegistryState where
  toolsConfig : List (String × ToolProperties)
  rpcHandlers : List (String × (Option Json → Option Json → Except String Json))
  serverMethods : List (String × (List Json → Except String Json))

/-- The method `McpHost.registerTool` (src/host.ts:251-292): store the
handler under `properties.functionName`, the descriptor under `toolName`,
and add the JWT-verifying wrapper as the JSON-RPC method named
`properties.functionName`. -/
def registerTool (verify : String → Except String (Option Json))
    (s : RegistryState) (toolName : String) (properties : ToolProperties)
    (handler : Option Json → Option Json → Except String Json) : RegistryState :=
  { toolsConfig := jsInsert s.toolsConfig toolName properties
    rpcHandlers := jsInsert s.rpcHandlers properties.functionName handler
    serverMethods := jsInsert s.serverMethods properties.functionName
      (wrappedHandler verify handler) }

/-- Dispatch of an incoming request by method name, as the JSON-RPC server
routes it: look the method up in the table and invoke it (none when the
method is unknown). -/
def dispatchRpc (s : RegistryState) (method : String) (params0 : List Json) :
    Option (Except String Json) :=
  (jsLookup s.serverMethods method).map (fun m => m params0)

/-! ## Spawn configuration (`getMCPServerConfig`, src/host.ts:315-362) -/

/-- The spawn options of `getMCPServerConfig` (src/host.ts:319): `command`
may be a single string or an argv array. -/
structure SpawnOptions where
  command : Option (String ⊕ List String)
  args : Option (List String)

/-- JavaScript truthiness of `options?.command`: absent and the empty string
are falsy; an array (even an empty one) is truthy. -/
def commandTruthy : Option (String ⊕ List String) → Bool
  | none => false
  | some (.inl s) => decide (s ≠ "")
  | some (.inr _) => true

/-- The command/args selection of `getMCPServerConfig` (src/host.ts:328-346):
defaults `npx -y @botanicastudios/mcp-host-rpc`; a truthy spawn-option
command replaces them (array: head and tail when non-empty; string: the
string with empty args), and only in that branch are spawn-option args
concatenated on. -/
def configCommandArgs (options : Option SpawnOptions) : String × List String :=
  match options with
  | none => ("npx", ["-y", "@botanicastudios/mcp-host-rpc"])
  | some opts =>
    if commandTruthy opts.command then
      let base : String × List String :=
        match opts.command with
        | some (.inr (c :: rest)) => (c, rest)
        | some (.inr []) => ("npx", ["-y", "@botanicastudios/mcp-host-rpc"])
        | some (.inl cmdStr) => (cmdStr, [])
        | none => ("npx", ["-y", "@botanicastudios/mcp-host-rpc"])
      match opts.args with
      | some extra => (base.1, base.2 ++ extra)
      | none => base
    else ("npx", ["-y", "@botanicastudios/mcp-host-rpc"])

/-- One named entry of the client configuration (src/host.ts:349-354). -/
structure ServerConfig where
  type : String
  command : String
  args : List String
  env : EnvVars

/-- The method `McpHost.getMCPServerConfig` (src/host.ts:315-362): validate
the server name, build the environment bundle, select command and args, and
return the configuration keyed by the server name. -/
def getMCPServerConfig (secret pipePath : String)
    (toolsConfig : List (String × ToolProperties)) (name : String)
    (tools : List String) (context : Json) (options : Option SpawnOptions) :
    Except String (String × ServerConfig) :=
  if name = "" then .error "Server name must be a non-empty string"
  else
    let envVars := getMCPServerEnvVars secret pipePath toolsConfig tools context
    let ca := configCommandArgs options
    .ok (name, { type := "stdio", command := ca.1, args := ca.2, env := envVars })

/-! ## Theorems

First the structural lemmas about the embedding's data model, then one
theorem (with its witness or counterexample) per claim. -/

mutual

theorem Json.eqb_eq_true_iff : ∀ a b : Json, Json.eqb a b = true ↔ a = b
  | .null, b => by cases b <;> simp [Json.eqb]
  | .bool p, b => by cases b <;> simp [Json.eqb]
  | .num p, b => by cases b <;> simp [Json.eqb]
  | .str p, b => by cases b <;> simp [Json.eqb]
  | .arr us, b => by
    cases b with
    | arr ws => simp [Json.eqb, Json.eqbArr_eq_true_iff us ws]
    | _ => simp [Json.eqb]
  | .obj us, b => by
    cases b with
    | obj ws => simp [Json.eqb, Json.eqbObj_eq_true_iff us ws]
    | _ => simp [Json.eqb]

theorem Json.eqbArr_eq_true_iff :
    ∀ us ws : List Json, Json.eqbArr us ws = true ↔ us = ws
  | [], [] => by simp [Json.eqbArr]
  | [], _ :: _ => by simp [Json.eqbArr]
  | _ :: _, [] => by simp [Json.eqbArr]
  | u :: urest, w :: wrest => by
    simp [Json.eqbArr, Json.eqb_eq_true_iff u w, Json.eqbArr_eq_true_iff urest wrest]

theorem Json.eqbObj_eq_true_iff :
    ∀ us ws : List (String × Json), Json.eqbObj us ws = true ↔ us = ws
  | [], [] => by simp [Json.eqbObj]
  | [], _ :: _ => by simp [Json.eqbObj]
  | _ :: _, [] => by simp [Json.eqbObj]
  | (ku, u) :: urest, (kw, w) :: wrest => by
    simp [Json.eqbObj, Json.eqb_eq_true_iff u w, Json.eqbObj_eq_true_iff urest wrest,
      and_assoc]

end

theorem jsLookup_jsInsert {α : Type} (m : List (String × α)) (k : String) (v : α)
    (k' : String) :
    jsLookup (jsInsert m k v) k' = if k = k' then some v else jsLookup m k' := by
  induction m with
  | nil => simp [jsInsert, jsLookup]
  | cons hd tl ih =>
    obtain ⟨k1, v1⟩ := hd
    by_cases h1 : k1 = k
    · subst h1
      by_cases h2 : k1 = k'
      · subst h2; simp [jsInsert, jsLookup]
      · simp [jsInsert, jsLookup, h2]
    · by_cases h2 : k1 = k'
      · subst h2
        have h3 : ¬(k = k1) := fun he => h1 he.symm
        simp [jsInsert, jsLookup, h1, h3]
      · simp [jsInsert, jsLookup, h1, h2, ih]

theorem filterTools_foldl_lookup (toolsConfig : List (String × ToolProperties))
    (tools : List String) (acc : List (String × ToolProperties)) (name : String) :
    jsLookup (tools.foldl (fun acc toolName =>
      match jsLookup toolsConfig toolName with
      | some props => jsInsert acc toolName props
      | none => acc) acc) name =
      if name ∈ tools ∧ (jsLookup toolsConfig name).isSome
      then jsLookup toolsConfig name
      else jsLookup acc name := by
  induction tools generalizing acc with
  | nil => simp
  | cons t ts ih =>
    rw [List.foldl_cons, ih]
    by_cases hmem : name ∈ ts ∧ (jsLookup toolsConfig name).isSome
    · simp only [hmem, if_pos]
      have : name ∈ t :: ts ∧ (jsLookup toolsConfig name).isSome :=
        ⟨List.mem_cons_of_mem t hmem.1, hmem.2⟩
      simp [this]
    · simp only [hmem, if_neg, not_false_iff]
      by_cases ht : t = name
      · subst ht
        cases hcfg : jsLookup toolsConfig t with
        | some props =>
          have hsome : (jsLookup toolsConfig t).isSome := by simp [hcfg]
          have : t ∈ t :: ts ∧ (jsLookup toolsConfig t).isSome :=
            ⟨List.mem_cons_self t ts, hsome⟩
          simp [this, hcfg, jsLookup_jsInsert]
        | none =>
          have : ¬(t ∈ t :: ts ∧ (jsLookup toolsConfig t).isSome) := by
            simp [hcfg]
          simp [this, hcfg]
      · have hcond : (name ∈ t :: ts ∧ (jsLookup toolsConfig name).isSome) ↔
            (name ∈ ts ∧ (jsLookup toolsConfig name).isSome) := by
          constructor
          · rintro ⟨hm, hs⟩
            rcases List.mem_cons.mp hm with h | h
            · exact absurd h.symm ht
            · exact ⟨h, hs⟩
          · rintro ⟨hm, hs⟩
            exact ⟨List.mem_cons_of_mem t hm, hs⟩
        rw [if_neg (fun hc => hmem (hcond.mp hc))]
        cases hcfg : jsLookup toolsConfig t with
        | some props => simp [jsLookup_jsInsert, ht]
        | none => rfl

theorem zodShapeToProperties_map_fst (shape : List (String × ZodSchema)) :
    (zodShapeToProperties shape).map Prod.fst = shape.map Prod.fst := by
  induction shape with
  | nil => rfl
  | cons hd tl ih =>
    obtain ⟨k, v⟩ := hd
    simp [zodShapeToProperties, ih]

theorem zodShapeRequired_mem (shape : List (String × ZodSchema)) (k : String) :
    Json.str k ∈ zodShapeRequired shape ↔
      ∃ v, (k, v) ∈ shape ∧ v.isOptional = false := by
  induction shape with
  | nil => simp [zodShapeRequired]
  | cons hd tl ih =>
    obtain ⟨k1, v1⟩ := hd
    by_cases hopt : v1.isOptional
    · rw [zodShapeRequired, if_pos hopt, ih]
      constructor
      · rintro ⟨v, hv, hvo⟩
        exact ⟨v, List.mem_cons_of_mem _ hv, hvo⟩
      · rintro ⟨v, hv, hvo⟩
        rcases List.mem_cons.mp hv with he | hm
        · obtain ⟨hk, hveq⟩ := Prod.mk.injEq .. ▸ he
          exact absurd (hveq ▸ hopt) (by simp [hvo])
        · exact ⟨v, hm, hvo⟩
    · rw [zodShapeRequired, if_neg hopt]
      constructor
      · intro hmem
        rcases List.mem_cons.mp hmem with he | hm
        · obtain rfl : k1 = k := by
            have := Json.str.injEq .. ▸ he.symm
            simpa using this
          exact ⟨v1, List.mem_cons_self _ _, Bool.not_eq_true _ ▸ (by simpa using hopt)⟩
        · obtain ⟨v, hv, hvo⟩ := ih.mp hm
          exact ⟨v, List.mem_cons_of_mem _ hv, hvo⟩
      · rintro ⟨v, hv, hvo⟩
        rcases List.mem_cons.mp hv with he | hm
        · obtain ⟨hk, hveq⟩ := Prod.mk.injEq .. ▸ he
          exact hk ▸ List.mem_cons_self _ _
        · exact List.mem_cons_of_mem _ (ih.mpr ⟨v, hm, hvo⟩)

/-- C1: for every secret `s` and context `c`, verifying `createJWT s c` with
`s` returns exactly `c` (round-trip), and verifying it with any different
secret `s2` fails with an authentication error — it never returns a default
or substitute context. -/
theorem verifyJWT_roundtrip_and_fails_closed (s s2 : String) (c : Json) (h : s2 ≠ s) :
    verifyJWT s (createJWT s c) = .ok (some c) ∧
    verifyJWT s2 (createJWT s c) = .error "Invalid JWT token: invalid signature" := by
  have hself : Json.eqb (Json.obj [("context", c)]) (Json.obj [("context", c)]) = true :=
    (Json.eqb_eq_true_iff _ _).mpr rfl
  have hne : (s == s2) = false := by
    simp only [beq_eq_false_iff_ne, ne_eq]
    exact fun he => h he.symm
  constructor
  · simp [verifyJWT, createJWT, jwtSign, jwtVerify, hself, Json.lookupField, jsLookup]
  · have hfail : jwtVerify s2 (createJWT s c) = .error "invalid signature" := by
      simp [jwtVerify, createJWT, jwtSign, hne]
    simp [verifyJWT, hfail]

/-- Witness for C1 at concrete secrets and context. -/
theorem verifyJWT_roundtrip_and_fails_closed_witness :
    verifyJWT "alpha" (createJWT "alpha" (.str "ctx")) = .ok (some (.str "ctx")) ∧
    verifyJWT "beta" (createJWT "alpha" (.str "ctx")) =
      .error "Invalid JWT token: invalid signature" :=
  verifyJWT_roundtrip_and_fails_closed "alpha" "beta" (.str "ctx") (by decide)

/-- C2: whenever the RPC request rejects with message `msg` for function
`fn`, the tool invocation returns (not throws) a result whose content is
exactly one text item reading `Error calling fn: msg`. -/
theorem bridgeToolCall_rpc_failure_text_result (fn msg : String) :
    bridgeToolCall fn (.error msg) =
      Json.obj [("content", Json.arr [Json.obj
        [("type", .str "text"),
         ("text", .str ("Error calling " ++ fn ++ ": " ++ msg))]])] := rfl

/-- Counterexample to C3 as stated: on an unwritable socket and a line that
fails to parse, the code still writes the parse-error reply, while the
claimed behavior drops it — the source has no writability check on this path
(the check exists only in the bridge's `send`). -/
theorem hostHandleLine_no_writability_check :
    hostHandleLine false "bad json" (fun _ => .error "Unexpected token b")
      (fun _ => none) =
        [.write (parseErrorResponse "Unexpected token b")] ∧
    hostHandleLineClaimed false "bad json" (fun _ => .error "Unexpected token b")
      (fun _ => none) = [] := by
  constructor <;> rfl

/-- C3 (amended): for every non-blank line whose JSON parse fails with error
text `e`, the host writes back exactly one structured reply with code
`-32700`, message `"Parse error"`, `data` the underlying error text, and a
null id; the write is unconditional — the source performs no writability
check before it — and the handler is total, so the bad line never throws. -/
theorem hostHandleLine_parse_error_reply (w : Bool) (line e : String)
    (jsonParse : String → Except String Json) (serverReceive : Json → Option Json)
    (hline : isBlank line = false) (hparse : jsonParse line = .error e) :
    hostHandleLine w line jsonParse serverReceive =
      [.write (Json.obj [("jsonrpc", .str "2.0"),
        ("error", Json.obj [("code", .num (-32700)),
                            ("message", .str "Parse error"),
                            ("data", .str e)]),
        ("id", Json.null)])] := by
  simp [hostHandleLine, hline, hparse, parseErrorResponse]

/-- Witness for the amended C3 at a concrete bad line. -/
theorem hostHandleLine_parse_error_reply_witness :
    hostHandleLine false "oops" (fun _ => .error "Unexpected token o")
      (fun _ => none) =
      [.write (Json.obj [("jsonrpc", .str "2.0"),
        ("error", Json.obj [("code", .num (-32700)),
                            ("message", .str "Parse error"),
                            ("data", .str "Unexpected token o")]),
        ("id", Json.null)])] :=
  hostHandleLine_parse_error_reply false "oops" "Unexpected token o"
    (fun _ => .error "Unexpected token o") (fun _ => none)
    (by decide) rfl

/-- C4: for every registry, requested subset and context, looking any name
up in the bundle's `TOOLS` mapping gives the registry's descriptor exactly
when the name was requested — a requested name absent from the registry is
silently omitted (the lookup agrees with the registry's, which is `none`
there), and an unrequested name is never included. -/
theorem getMCPServerEnvVars_tools_exact (secret pipePath : String)
    (toolsConfig : List (String × ToolProperties)) (tools : List String)
    (context : Json) (name : String) :
    jsLookup (getMCPServerEnvVars secret pipePath toolsConfig tools context).TOOLS name =
      if name ∈ tools then jsLookup toolsConfig name else none := by
  show jsLookup (filterTools toolsConfig tools) name = _
  rw [filterTools, filterTools_foldl_lookup]
  by_cases hmem : name ∈ tools
  · cases hcfg : jsLookup toolsConfig name with
    | some props => simp [hmem, hcfg]
    | none => simp [hmem, hcfg, jsLookup]
  · simp [hmem, jsLookup]

/-- C5: the four-way case analysis of the bridge's normalization of a
successful RPC result: a string becomes one text item; an array passes
through unchanged as the content list; an object carrying a `"type"` key is
wrapped as a one-element content list; anything else is JSON-serialized into
one text item. -/
theorem bridgeContentOfResult_cases (r : Json) :
    (∀ s, r = .str s → bridgeContentOfResult r = mkContent [textItem s]) ∧
    (∀ xs, r = .arr xs → bridgeContentOfResult r = Json.obj [("content", Json.arr xs)]) ∧
    (∀ fs, r = .obj fs → r.hasKey "type" = true →
      bridgeContentOfResult r = mkContent [r]) ∧
    ((∀ s, r ≠ .str s) → (∀ xs, r ≠ .arr xs) →
      (∀ fs, r.hasKey "type" = true → r ≠ .obj fs) →
      bridgeContentOfResult r = mkContent [textItem r.stringify]) := by
  refine ⟨?_, ?_, ?_, ?_⟩
  · rintro s rfl; rfl
  · rintro xs rfl; rfl
  · rintro fs rfl htype
    simp [bridgeContentOfResult, htype]
  · intro hs harr hobj
    match r with
    | .null => rfl
    | .bool b => rfl
    | .num n => rfl
    | .str s => exact absurd rfl (hs s)
    | .arr xs => exact absurd rfl (harr xs)
    | .obj fs =>
      by_cases htype : (Json.obj fs).hasKey "type" = true
      · exact absurd rfl (hobj fs htype)
      · simp [bridgeContentOfResult, htype]

/-- Witness for C5: each branch of the case analysis at a concrete result. -/
theorem bridgeContentOfResult_cases_witness :
    bridgeContentOfResult (.str "hi") = mkContent [textItem "hi"] ∧
    bridgeContentOfResult (.arr [.num 1]) = Json.obj [("content", Json.arr [.num 1])] ∧
    bridgeContentOfResult (.obj [("type", .str "image")]) =
      mkContent [.obj [("type", .str "image")]] ∧
    bridgeContentOfResult (.num 5) = mkContent [textItem "5"] :=
  ⟨(bridgeContentOfResult_cases (.str "hi")).1 "hi" rfl,
   (bridgeContentOfResult_cases (.arr [.num 1])).2.1 [.num 1] rfl,
   (bridgeContentOfResult_cases (.obj [("type", .str "image")])).2.2.1
     [("type", .str "image")] rfl (by decide),
   (bridgeContentOfResult_cases (.num 5)).2.2.2
     (fun s h => Json.noConfusion h) (fun xs h => Json.noConfusion h)
     (fun fs _ h => Json.noConfusion h)⟩

/-- C6: for every incoming request whose two-element positional array has a
non-string first element, the wrapped handler fails with a type error naming
the actual JavaScript type received, and the outcome is the same for every
verifier and every handler — so no token verification or handler invocation
can have happened, and no coercion to string is attempted. -/
theorem wrappedHandler_rejects_nonstring_token (a b : Json)
    (hns : ∀ s, a ≠ Json.str s) :
    ∀ (verify : String → Except String (Option Json))
      (handler : Option Json → Option Json → Except String Json),
      wrappedHandler verify handler [a, b] =
        .error ("Expected JWT token as string, got " ++ jsTypeof a) := by
  intro verify handler
  match a, hns with
  | .null, _ => rfl
  | .bool x, _ => rfl
  | .num x, _ => rfl
  | .arr x, _ => rfl
  | .obj x, _ => rfl
  | .str s, hns => exact absurd rfl (hns s)

/-- Witness for C6: a numeric first element yields the type error naming
`number`, with a verifier and handler that would both succeed. -/
theorem wrappedHandler_rejects_nonstring_token_witness :
    wrappedHandler (fun _ => .ok (some .null)) (fun _ _ => .ok .null)
      [.num 42, .obj []] =
      .error "Expected JWT token as string, got number" :=
  wrappedHandler_rejects_nonstring_token (.num 42) (.obj [])
    (fun s h => Json.noConfusion h) (fun _ => .ok (some .null)) (fun _ _ => .ok .null)

/-- C7: on an object-schema node, `zodToJsonSchema` produces a JSON-Schema
object whose `required` list holds exactly the keys of the non-optional
declared fields, whose `properties` has exactly the declared keys, and which
carries `additionalProperties: false`; an optional-wrapper field is
unwrapped (translated as its inner schema) but not added to `required`. -/
theorem zodToJsonSchema_object_spec (shape : List (String × ZodSchema)) :
    (zodToJsonSchema (.zObject shape)).lookupField "additionalProperties" =
        some (.bool false) ∧
    ((zodToJsonSchema (.zObject shape)).lookupField "properties" =
        some (Json.obj (zodShapeToProperties shape)) ∧
      (zodShapeToProperties shape).map Prod.fst = shape.map Prod.fst) ∧
    ((zodToJsonSchema (.zObject shape)).lookupField "required" =
        some (Json.arr (zodShapeRequired shape)) ∧
      ∀ k : String, Json.str k ∈ zodShapeRequired shape ↔
        ∃ v, (k, v) ∈ shape ∧ v.isOptional = false) ∧
    (∀ inner : ZodSchema, zodToJsonSchema (.zOptional inner) = zodToJsonSchema inner ∧
      ZodSchema.isOptional (.zOptional inner) = true) :=
  ⟨rfl,
   ⟨rfl, zodShapeToProperties_map_fst shape⟩,
   ⟨rfl, fun k => zodShapeRequired_mem shape k⟩,
   fun _ => ⟨rfl, rfl⟩⟩

/-- C8: `start` in a started state fails with "Server is already started"
and performs no socket binding, leaving the state unchanged; `stop` in a
non-started state resolves immediately as a no-op — success outcome,
unchanged state, no effects. -/
theorem hostStart_hostStop_guards (s : HostLifecycle) (pipePath : String)
    (bindResult closeResult : Except String Unit) :
    (s.isStarted = true →
      hostStart s pipePath bindResult = (.error "Server is already started", s, [])) ∧
    (s.isStarted = false →
      hostStop s pipePath closeResult = (.ok (), s, [])) := by
  constructor
  · intro h
    simp [hostStart, h]
  · intro h
    simp [hostStop, h]

/-- Witness for C8: both guards at concrete states. -/
theorem hostStart_hostStop_guards_witness :
    hostStart ⟨true, true⟩ "/tmp/mcp-pipe.sock" (.ok ()) =
      (.error "Server is already started", ⟨true, true⟩, []) ∧
    hostStop ⟨false, false⟩ "/tmp/mcp-pipe.sock" (.ok ()) =
      (.ok (), ⟨false, false⟩, []) :=
  ⟨(hostStart_hostStop_guards ⟨true, true⟩ "/tmp/mcp-pipe.sock" (.ok ()) (.ok ())).1 rfl,
   (hostStart_hostStop_guards ⟨false, false⟩ "/tmp/mcp-pipe.sock" (.ok ()) (.ok ())).2 rfl⟩

/-- C9 (implicit): re-registering an existing tool name with a different
function name replaces the stored descriptor for that tool name, but the
handler registered under the old function name is not removed: it survives
in the handler map, and an RPC request naming the old function name is still
dispatched to the old handler's wrapper. -/
theorem registerTool_reregister_keeps_old_handler
    (verify : String → Except String (Option Json)) (s : RegistryState)
    (toolName : String) (p1 p2 : ToolProperties)
    (h1 h2 : Option Json → Option Json → Except String Json)
    (params0 : List Json) (hfn : p1.functionName ≠ p2.functionName) :
    jsLookup (registerTool verify (registerTool verify s toolName p1 h1) toolName p2 h2).toolsConfig
        toolName = some p2 ∧
    jsLookup (registerTool verify (registerTool verify s toolName p1 h1) toolName p2 h2).rpcHandlers
        p1.functionName = some h1 ∧
    dispatchRpc (registerTool verify (registerTool verify s toolName p1 h1) toolName p2 h2)
        p1.functionName params0 = some (wrappedHandler verify h1 params0) := by
  have hfn2 : ¬(p2.functionName = p1.functionName) := fun he => hfn he.symm
  refine ⟨?_, ?_, ?_⟩
  · simp [registerTool, jsLookup_jsInsert]
  · simp [registerTool, jsLookup_jsInsert, hfn2]
  · simp [dispatchRpc, registerTool, jsLookup_jsInsert, hfn2]

/-- Witness for C9: a concrete re-registration of tool `t` moving from
function `f1` to `f2`; the old function name still dispatches to the old
handler's wrapper. -/
theorem registerTool_reregister_keeps_old_handler_witness :
    jsLookup (registerTool (fun _ => .ok (some .null))
        (registerTool (fun _ => .ok (some .null)) ⟨[], [], []⟩ "t"
          ⟨"T", "d", "f1", .null⟩ (fun _ _ => .ok (.str "one"))) "t"
        ⟨"T", "d", "f2", .null⟩ (fun _ _ => .ok (.str "two"))).toolsConfig "t" =
      some ⟨"T", "d", "f2", .null⟩ ∧
    jsLookup (registerTool (fun _ => .ok (some .null))
        (registerTool (fun _ => .ok (some .null)) ⟨[], [], []⟩ "t"
          ⟨"T", "d", "f1", .null⟩ (fun _ _ => .ok (.str "one"))) "t"
        ⟨"T", "d", "f2", .null⟩ (fun _ _ => .ok (.str "two"))).rpcHandlers "f1" =
      some (fun _ _ => .ok (.str "one")) ∧
    dispatchRpc (registerTool (fun _ => .ok (some .null))
        (registerTool (fun _ => .ok (some .null)) ⟨[], [], []⟩ "t"
          ⟨"T", "d", "f1", .null⟩ (fun _ _ => .ok (.str "one"))) "t"
        ⟨"T", "d", "f2", .null⟩ (fun _ _ => .ok (.str "two"))) "f1" [.str "tok", .null] =
      some (wrappedHandler (fun _ => .ok (some .null)) (fun _ _ => .ok (.str "one"))
        [.str "tok", .null]) :=
  registerTool_reregister_keeps_old_handler (fun _ => .ok (some .null)) ⟨[], [], []⟩
    "t" ⟨"T", "d", "f1", .null⟩ ⟨"T", "d", "f2", .null⟩
    (fun _ _ => .ok (.str "one")) (fun _ _ => .ok (.str "two"))
    [.str "tok", .null] (by decide)

/-- C10 (implicit): spawn-option `args` are applied only when a spawn-option
`command` is also supplied; a call passing `args` without `command` keeps
the default command `npx` with the default args
`["-y", "@botanicastudios/mcp-host-rpc"]`, the supplied args silently
ignored. -/
theorem getMCPServerConfig_args_need_command (secret pipePath : String)
    (toolsConfig : List (String × ToolProperties)) (name : String)
    (tools : List String) (context : Json) (extraArgs : List String)
    (hname : name ≠ "") :
    getMCPServerConfig secret pipePath toolsConfig name tools context
        (some ⟨none, some extraArgs⟩) =
      .ok (name,
        { type := "stdio", command := "npx",
          args := ["-y", "@botanicastudios/mcp-host-rpc"],
          env := getMCPServerEnvVars secret pipePath toolsConfig tools context }) := by
  simp [getMCPServerConfig, hname, configCommandArgs, commandTruthy]

/-- Witness for C10: a concrete call passing only spawn args. -/
theorem getMCPServerConfig_args_need_command_witness :
    getMCPServerConfig "alpha" "/tmp/mcp-pipe.sock" [] "srv" [] .null
        (some ⟨none, some ["--extra"]⟩) =
      .ok ("srv",
        { type := "stdio", command := "npx",
          args := ["-y", "@botanicastudios/mcp-host-rpc"],
          env := getMCPServerEnvVars "alpha" "/tmp/mcp-pipe.sock" [] [] .null }) :=
  getMCPServerConfig_args_need_command "alpha" "/tmp/mcp-pipe.sock" [] "srv" [] .null
    ["--extra"] (by decide)
